import Mathlib

/-!
Verification of the medical-invoice-parser extraction pipeline against its
specification.  The repository's frontend (React components) is embedded from
the JavaScript sources; the backend services (`mineru_api.py`,
`zhipu_structurer.py`, `models/invoice.py`, `routers/convert.py`) are not in
the source tree, so their operations are modelled from the specification and
from the code excerpts preserved in the development log
(`docs/prompts-log.md`) and `CLAUDE.md`.
-/

namespace MedicalInvoiceParser

/-! ## Content blocks and flattening (Content Extractor) -/

/-- A semantic unit of the parsed document (one element of a page in
`content_list_v2.json`): a type tag (`title`, `paragraph`, `table`,
`page_footer`, ...) and its text payload.
Modelled from the spec: `RawContentBlock` in §3 of the spec; the backend file
`backend/services/mineru_api.py` that consumes it is absent from the tree. -/
structure RawContentBlock where
  tag : String
  text : String
  deriving DecidableEq, Repr

/-- Modelled from the spec: `_flatten_content_list` of the absent
`backend/services/mineru_api.py` — "iterates pages → blocks, extracts text by
type, joins with newlines" (docs/prompts-log.md), i.e. for each page in order,
for each block in order, the block's text payload becomes one line. -/
def flatten_content_list (pages : List (List RawContentBlock)) : String :=
  let lines := pages.foldl (fun acc page => acc ++ page.map RawContentBlock.text) []
  String.intercalate "\n" lines

/-! ## Result archive and format fallback (Content Extractor) -/

/-- Pipeline error taxonomy (spec §7). -/
inductive PipeError where
  | submission
  | pollTimeout
  | fetch
  | noContentFound
  | structuringParse
  | schemaValidation
  deriving DecidableEq, Repr

/-- The members of a downloaded result archive that the extractor recognises:
the richer hierarchical listing `content_list_v2.json`, the looser
`*_content_list.json` variant, and the plain markdown rendering.
Modelled from the spec: the archive handling of the absent
`backend/services/mineru_api.py`. -/
structure ResultArchive where
  content_list_v2 : Option (List (List RawContentBlock))
  content_list : Option (List (List RawContentBlock))
  markdown : Option String
  deriving Repr

/-- Modelled from the spec: `_extract_content_text_from_zip` of the absent
`backend/services/mineru_api.py` — "tries `content_list_v2.json` first, falls
back to `*_content_list.json`, then markdown" (docs/prompts-log.md);
absence of all three is a `NoContentFoundError` (spec §4.2). -/
def extract_content_text_from_zip (z : ResultArchive) : Except PipeError String :=
  match z.content_list_v2 with
  | some pages => .ok (flatten_content_list pages)
  | none =>
    match z.content_list with
    | some pages => .ok (flatten_content_list pages)
    | none =>
      match z.markdown with
      | some md => .ok md
      | none => .error .noContentFound

/-! ## Batch polling (Document Parse Client) -/

/-- One entry of `data.extract_result[]` in a MinerU batch-status response:
per-file name, state, and — when done — a result location.  Modelled from the
spec: the response shape documented in docs/prompts-log.md (Session 5) for the
absent `backend/services/mineru_api.py`. -/
structure RemoteEntry where
  file_name : String
  state : String
  full_zip_url : Option String
  err_msg : Option String
  deriving DecidableEq, Repr

/-- A batch-status response envelope: an optional top-level state field (the
real MinerU envelope has none) and the per-file entry list `extract_result`.
Modelled from the spec: §6 "response envelope carries a list of per-file
entries, each with its own ... terminal-state field". -/
structure PollResponse where
  top_state : Option String
  extract_result : List RemoteEntry
  deriving DecidableEq, Repr

/-- Whether a per-file entry is in a terminal state. -/
def entry_terminal (e : RemoteEntry) : Bool :=
  e.state == "done" || e.state == "failed"

/-- The terminal check of `_poll_results`, transcribed from the fix recorded
in docs/prompts-log.md lines 183–189:
`if extract_result and all(s in ("done", "failed") for s in states)`.
It reads only the entry list, never the envelope's top-level state, and a
response with an empty entry list is not terminal. -/
def all_terminal (r : PollResponse) : Bool :=
  !r.extract_result.isEmpty && r.extract_result.all entry_terminal

/-- Modelled from the spec: the polling loop of `_poll_results` in the absent
`backend/services/mineru_api.py` — query the batch status once per interval,
return the response as soon as `all_terminal` holds, and raise
`PollTimeoutError` when the number of intervals exhausts the configured
timeout.  `responses k` is the remote response observed at the k-th interval;
`fuel` is the remaining interval budget. -/
def poll_results (responses : ℕ → PollResponse) : ℕ → ℕ → Except PipeError PollResponse
  | 0, _ => .error .pollTimeout
  | fuel + 1, k =>
    if all_terminal (responses k) then .ok (responses k)
    else poll_results responses fuel (k + 1)

/-! ## Structured extraction: InvoiceData with bilingual aliases -/

/-- The JSON values relevant to the invoice schema: `null`, numbers
(fixed-point decimals, embedded as rationals) and strings. -/
inductive Json where
  | null
  | num (q : ℚ)
  | str (s : String)
  deriving DecidableEq, Repr

/-- Key lookup in a JSON object represented as an association list (first
binding wins, as in a parsed JSON object whose keys are unique). -/
def jlookup : List (String × Json) → String → Option Json
  | [], _ => none
  | (k, v) :: rest, key => if k = key then some v else jlookup rest key

/-- Modelled from the spec: the Pydantic `InvoiceData` model of the absent
`backend/models/invoice.py` — seven typed fields with English internal names,
each `Optional` so that a field absent from the model output is "unset"
(README.md Target JSON Schema table). -/
structure InvoiceData where
  total_amount : Option ℚ
  payee : Option String
  visit_date : Option String
  insurance_payment : Option ℚ
  personal_payment : Option ℚ
  personal_account_payment : Option ℚ
  personal_cash_payment : Option ℚ
  deriving DecidableEq, Repr

/-- The seven human-facing (Chinese) labels, in the declared field order. -/
def invoiceAliases : List String :=
  ["总金额", "收款单位", "就诊日期", "医保基金支付金额", "个人支付", "个人账户支付", "个人现金支付"]

/-- Decode a JSON value into an optional decimal: `null` is "unset". -/
def decodeNum : Json → Option ℚ
  | .num q => some q
  | _ => none

/-- Decode a JSON value into an optional string: `null` is "unset". -/
def decodeStr : Json → Option String
  | .str s => some s
  | _ => none

/-- Read a numeric field by key: absent or `null` is "unset"; a value of the
wrong declared type is a schema-validation error. -/
def getNum (obj : List (String × Json)) (key : String) : Except PipeError (Option ℚ) :=
  match jlookup obj key with
  | none => .ok none
  | some .null => .ok none
  | some (.num q) => .ok (some q)
  | some (.str _) => .error .schemaValidation

/-- Read a string field by key: absent or `null` is "unset"; a value of the
wrong declared type is a schema-validation error. -/
def getStr (obj : List (String × Json)) (key : String) : Except PipeError (Option String) :=
  match jlookup obj key with
  | none => .ok none
  | some .null => .ok none
  | some (.str s) => .ok (some s)
  | some (.num _) => .error .schemaValidation

/-- Modelled from the spec: `InvoiceData.model_validate` as used by the absent
`backend/services/zhipu_structurer.py` — build the record from a JSON object
keyed by the Chinese aliases; a present field of the wrong type is a
`SchemaValidationError`, an absent or `null` field is "unset". -/
def model_validate (obj : List (String × Json)) : Except PipeError InvoiceData :=
  match getNum obj "总金额", getStr obj "收款单位", getStr obj "就诊日期",
        getNum obj "医保基金支付金额", getNum obj "个人支付",
        getNum obj "个人账户支付", getNum obj "个人现金支付" with
  | .ok ta, .ok py, .ok vd, .ok ip, .ok pp, .ok pap, .ok pcp =>
      .ok ⟨ta, py, vd, ip, pp, pap, pcp⟩
  | _, _, _, _, _, _, _ => .error .schemaValidation

/-- Serialize an optional decimal back to JSON ("unset" is `null`). -/
def dumpNum : Option ℚ → Json
  | none => .null
  | some q => .num q

/-- Serialize an optional string back to JSON ("unset" is `null`). -/
def dumpStr : Option String → Json
  | none => .null
  | some s => .str s

/-- Modelled from the spec: `model_dump(by_alias=True)` — serialize the record
using the human-facing Chinese labels as keys (README.md: "The API response
serializes with `by_alias=True`"). -/
def model_dump_by_alias (d : InvoiceData) : List (String × Json) :=
  [("总金额", dumpNum d.total_amount),
   ("收款单位", dumpStr d.payee),
   ("就诊日期", dumpStr d.visit_date),
   ("医保基金支付金额", dumpNum d.insurance_payment),
   ("个人支付", dumpNum d.personal_payment),
   ("个人账户支付", dumpNum d.personal_account_payment),
   ("个人现金支付", dumpNum d.personal_cash_payment)]

/-- A JSON value that fits a numeric field's declared type. -/
def numericValue (v : Json) : Prop := v = .null ∨ ∃ q, v = .num q

/-- A JSON value that fits a string field's declared type. -/
def stringValue (v : Json) : Prop := v = .null ∨ ∃ s, v = .str s

/-- A value bound to one of the seven labels fits that field's declared type
(values under other keys are unconstrained: unknown keys are ignored). -/
def declaredTypeOk (key : String) (v : Json) : Prop :=
  (key = "总金额" → numericValue v) ∧
  (key = "收款单位" → stringValue v) ∧
  (key = "就诊日期" → stringValue v) ∧
  (key = "医保基金支付金额" → numericValue v) ∧
  (key = "个人支付" → numericValue v) ∧
  (key = "个人账户支付" → numericValue v) ∧
  (key = "个人现金支付" → numericValue v)

/-! ## Pipeline orchestration (batch run with failure isolation) -/

/-- One entry of the ordered result list returned by the pipeline: the file
name together with either a validated record (`data`) or a structured failure
descriptor (`failure`).  Modelled from the spec: `PipelineResult` in §3 and
the `{filename, data | error}` response shape of README.md. -/
inductive PipelineResult where
  | data (filename : String) (record : InvoiceData)
  | failure (filename : String) (error : String)
  deriving DecidableEq, Repr

/-- The file name carried by a pipeline result. -/
def PipelineResult.filename : PipelineResult → String
  | .data fn _ => fn
  | .failure fn _ => fn

/-- The error-kind text recorded in a failure descriptor (spec §7 taxonomy). -/
def errKind : PipeError → String
  | .submission => "SubmissionError"
  | .pollTimeout => "PollTimeoutError"
  | .fetch => "FetchError"
  | .noContentFound => "NoContentFoundError"
  | .structuringParse => "StructuringParseError"
  | .schemaValidation => "SchemaValidationError"

/-- Locate a file's entry in the polled entry list; the remote service may
list entries in any completion order, so the entry is found by file name. -/
def findEntry (entries : List RemoteEntry) (name : String) : Option RemoteEntry :=
  entries.find? (fun e => e.file_name == name)

/-- Modelled from the spec: the per-file fetch → extract → structure chain of
the absent `backend/routers/convert.py`; `fetches` abstracts the archive
download for a `done` file (its result is this file's own archive) and
`structures` abstracts the language-model structuring of the flattened text.
Content extraction uses the real in-archive fallback
`extract_content_text_from_zip`. -/
def fileChain (fetches : String → Except PipeError ResultArchive)
    (structures : String → Except PipeError InvoiceData) (name : String) :
    Except PipeError InvoiceData :=
  match fetches name with
  | .error e => .error e
  | .ok z =>
    match extract_content_text_from_zip z with
    | .error e => .error e
    | .ok text => structures text

/-- Modelled from the spec: the per-file step of `run` in the absent
`backend/routers/convert.py` (spec §4.4) — a `done` file runs the
fetch/extract/structure chain and records either the record or, on any
exception from that chain, a failure descriptor with the error kind; a file
whose entry is not `done` records a failure descriptor carrying the remote's
own failure text when available. -/
def processFile (entries : List RemoteEntry)
    (fetches : String → Except PipeError ResultArchive)
    (structures : String → Except PipeError InvoiceData) (name : String) :
    PipelineResult :=
  match findEntry entries name with
  | none => .failure name "missing result entry"
  | some e =>
    if e.state = "done" then
      match fileChain fetches structures name with
      | .ok rec => .data name rec
      | .error err => .failure name (errKind err)
    else
      .failure name (e.err_msg.getD "remote parsing failed")

/-- Modelled from the spec: `run(files)` of the absent
`backend/routers/convert.py` after the single submit and the single poll —
the final polled entry list `entries` is processed once per submitted file,
iterating the files in their original input order (spec §4.4: "Result order
is reconstructed to match the original input order"). -/
def run_pipeline (entries : List RemoteEntry)
    (fetches : String → Except PipeError ResultArchive)
    (structures : String → Except PipeError InvoiceData)
    (files : List String) : List PipelineResult :=
  files.map (processFile entries fetches structures)

/-! ## Per-file job status (FileJobStatus invariants) -/

/-- The per-file job states of spec §3. -/
inductive JobState where
  | pending
  | running
  | done
  | failed
  deriving DecidableEq, Repr

/-- Terminal states: `done` and `failed` (spec glossary). -/
def JobState.terminal : JobState → Bool
  | .done => true
  | .failed => true
  | _ => false

/-- Modelled from the spec: `FileJobStatus` in §3 — file identifier, current
state, optional result-location (only valid when done) and optional
failure-reason (only valid when failed). -/
structure FileJobStatus where
  file_id : String
  state : JobState
  result_location : Option String
  failure_reason : Option String
  deriving DecidableEq, Repr

/-- The status a file starts with when its batch is submitted. -/
def initStatus (id : String) : FileJobStatus := ⟨id, .pending, none, none⟩

/-- Modelled from the spec: one polling-loop step applied to a file's status
from its remote entry (spec §3: mutated only by the polling loop; never
regresses from a terminal state; unrecognized remote labels are treated as
transient, §9). -/
def updateStatus (s : FileJobStatus) (e : RemoteEntry) : FileJobStatus :=
  if s.state.terminal then s
  else if e.state = "done" then ⟨s.file_id, .done, e.full_zip_url, none⟩
  else if e.state = "failed" then ⟨s.file_id, .failed, none, e.err_msg⟩
  else if e.state = "running" then ⟨s.file_id, .running, none, none⟩
  else s

/-- A file's status after a sequence of polling-loop steps. -/
def runUpdates (s : FileJobStatus) (es : List RemoteEntry) : FileJobStatus :=
  es.foldl updateStatus s

/-! ## Frontend: download naming and drag-and-drop filtering -/

/-- JavaScript's `String.prototype.replace(pat, '')` with a plain-string
pattern, as used in `handleDownload` (JsonViewer component): remove the first
occurrence of `pat`, case-sensitively; a string with no occurrence is
returned unchanged. -/
def jsReplaceFirst (pat : List Char) : List Char → List Char
  | [] => []
  | c :: rest =>
    if pat.isPrefixOf (c :: rest) then (c :: rest).drop pat.length
    else c :: jsReplaceFirst pat rest

/-- The saved-file name built by `handleDownload` in the JsonViewer
component: `result.filename.replace('.pdf', '')` followed by
`_extracted.json`. -/
def handleDownloadName (filename : List Char) : List Char :=
  jsReplaceFirst ".pdf".toList filename ++ "_extracted.json".toList

/-- A browser file as seen by the upload component: name and MIME type. -/
structure DomFile where
  name : String
  mime : String
  deriving DecidableEq, Repr

/-- The drop handler of `FileUpload.jsx` lines 18–31: keep only dropped files
whose MIME type is `application/pdf`; when none remain, alert and return
without invoking the selection callback (`none`); otherwise invoke the
callback with exactly the PDF subset (`some`). -/
def handleDrop (dropped : List DomFile) : Option (List DomFile) :=
  let pdfFiles := dropped.filter (fun f => f.mime == "application/pdf")
  if pdfFiles.isEmpty then none else some pdfFiles

/-- The browse-dialog handler of `FileUpload.jsx` lines 33–36: files chosen
through the dialog are passed to the selection callback unfiltered. -/
def handleFileSelect (selected : List DomFile) : Option (List DomFile) :=
  some selected

end MedicalInvoiceParser

namespace MedicalInvoiceParser

/-- The texts of all blocks of all pages, in page order then block order. -/
def pageTexts (pages : List (List RawContentBlock)) : List String :=
  (pages.map (fun page => page.map RawContentBlock.text)).flatten

theorem foldl_append_texts (pages : List (List RawContentBlock)) (acc : List String) :
    pages.foldl (fun acc page => acc ++ page.map RawContentBlock.text) acc
      = acc ++ pageTexts pages := by
  induction pages generalizing acc with
  | nil => simp [pageTexts]
  | cons p ps ih =>
    simp only [List.foldl_cons, ih, pageTexts, List.map_cons, List.flatten_cons,
      List.append_assoc]

theorem flatten_content_list_eq (pages : List (List RawContentBlock)) :
    flatten_content_list pages = String.intercalate "\n" (pageTexts pages) := by
  unfold flatten_content_list
  rw [foldl_append_texts, List.nil_append]

/-- C7 — For every sequence of pages of content blocks, `flatten` produces the
text obtained by emitting each block's text payload on its own line, iterating
pages in page order and blocks within each page in block order, with the
block's type tag never appearing in the output text (the output depends only
on the text payloads, not on the tags). -/
theorem flatten_emits_texts_in_order_without_tags :
    (∀ pages : List (List RawContentBlock),
      flatten_content_list pages
        = String.intercalate "\n"
            ((pages.map (fun page => page.map RawContentBlock.text)).flatten)) ∧
    (∀ pages pages' : List (List RawContentBlock),
      pages.map (fun page => page.map RawContentBlock.text)
          = pages'.map (fun page => page.map RawContentBlock.text) →
      flatten_content_list pages = flatten_content_list pages') := by
  constructor
  · intro pages
    exact flatten_content_list_eq pages
  · intro pages pages' h
    rw [flatten_content_list_eq, flatten_content_list_eq, pageTexts, pageTexts, h]

/-- Witness for C7: a concrete two-page document with four blocks flattens to
one line per block, in page order then block order, and changing every tag
leaves the output unchanged. -/
theorem flatten_emits_texts_in_order_without_tags_witness :
    flatten_content_list
        [[⟨"title", "北京市医疗门诊收费票据"⟩, ⟨"paragraph", "交款人：张三"⟩],
         [⟨"table", "<table>124.56</table>"⟩, ⟨"page_footer", "收款单位（章）：宣武医院"⟩]]
      = "北京市医疗门诊收费票据\n交款人：张三\n<table>124.56</table>\n收款单位（章）：宣武医院" ∧
    flatten_content_list
        [[⟨"title", "北京市医疗门诊收费票据"⟩, ⟨"paragraph", "交款人：张三"⟩],
         [⟨"table", "<table>124.56</table>"⟩, ⟨"page_footer", "收款单位（章）：宣武医院"⟩]]
      = flatten_content_list
        [[⟨"other", "北京市医疗门诊收费票据"⟩, ⟨"other", "交款人：张三"⟩],
         [⟨"other", "<table>124.56</table>"⟩, ⟨"other", "收款单位（章）：宣武医院"⟩]] := by
  constructor
  · rw [(flatten_emits_texts_in_order_without_tags).1]
    rfl
  · exact (flatten_emits_texts_in_order_without_tags).2 _ _ rfl

/-- C4 — For every result archive, extract evaluates the candidate content
representations in the fixed priority order richer hierarchical listing
(`content_list_v2.json`), then looser equivalent listing
(`*_content_list.json`), then plain-text rendering (markdown), selects the
first one present in the archive (ignoring lower-priority ones even when also
present), and fails with `NoContentFoundError` if and only if none of the
three is present. -/
theorem extract_priority_order_and_no_content_error :
    (∀ (z : ResultArchive) (pages : List (List RawContentBlock)),
      z.content_list_v2 = some pages →
      extract_content_text_from_zip z = .ok (flatten_content_list pages)) ∧
    (∀ (z : ResultArchive) (pages : List (List RawContentBlock)),
      z.content_list_v2 = none → z.content_list = some pages →
      extract_content_text_from_zip z = .ok (flatten_content_list pages)) ∧
    (∀ (z : ResultArchive) (md : String),
      z.content_list_v2 = none → z.content_list = none → z.markdown = some md →
      extract_content_text_from_zip z = .ok md) ∧
    (∀ z : ResultArchive,
      extract_content_text_from_zip z = .error .noContentFound ↔
        z.content_list_v2 = none ∧ z.content_list = none ∧ z.markdown = none) := by
  refine ⟨?_, ?_, ?_, ?_⟩
  · intro z pages h
    simp [extract_content_text_from_zip, h]
  · intro z pages h1 h2
    simp [extract_content_text_from_zip, h1, h2]
  · intro z md h1 h2 h3
    simp [extract_content_text_from_zip, h1, h2, h3]
  · intro z
    unfold extract_content_text_from_zip
    rcases hv : z.content_list_v2 with _ | pages
    · rcases hc : z.content_list with _ | pages
      · rcases hm : z.markdown with _ | md
        · simp
        · simp
      · simp
    · simp

/-- Witness for C4: an archive holding both the richer listing and a markdown
rendering extracts via the richer listing, ignoring the markdown; the
all-absent archive yields `NoContentFoundError`. -/
theorem extract_priority_order_and_no_content_error_witness :
    extract_content_text_from_zip
        ⟨some [[⟨"page_footer", "收款单位（章）：宣武医院"⟩]], none, some "full.md text"⟩
      = .ok "收款单位（章）：宣武医院" ∧
    extract_content_text_from_zip ⟨none, none, none⟩ = .error .noContentFound := by
  constructor
  · rw [extract_priority_order_and_no_content_error.1
      ⟨some [[⟨"page_footer", "收款单位（章）：宣武医院"⟩]], none, some "full.md text"⟩
      [[⟨"page_footer", "收款单位（章）：宣武医院"⟩]] rfl]
    rfl
  · exact (extract_priority_order_and_no_content_error.2.2.2 ⟨none, none, none⟩).mpr
      ⟨rfl, rfl, rfl⟩

theorem poll_results_ok_of_first (responses : ℕ → PollResponse) (fuel start n : ℕ)
    (h1 : start ≤ n) (h2 : n < start + fuel) (h3 : all_terminal (responses n) = true)
    (h4 : ∀ k, start ≤ k → k < n → all_terminal (responses k) = false) :
    poll_results responses fuel start = .ok (responses n) := by
  induction fuel generalizing start with
  | zero => omega
  | succ m ih =>
    rw [poll_results]
    by_cases hs : all_terminal (responses start) = true
    · have hns : n = start := by
        by_contra hne
        have : start < n := lt_of_le_of_ne h1 (Ne.symm hne)
        have := h4 start le_rfl this
        rw [hs] at this
        exact Bool.true_eq_false.mp this
      rw [hns, hs]
      simp
    · have hsn : start < n := by
        rcases lt_or_eq_of_le h1 with h | h
        · exact h
        · exact absurd (h ▸ h3) hs
      rw [if_neg hs]
      exact ih (start + 1) hsn (by omega) (fun k hk1 hk2 => h4 k (by omega) hk2)

theorem poll_results_timeout_of_none (responses : ℕ → PollResponse) (fuel start : ℕ)
    (h : ∀ k, start ≤ k → k < start + fuel → all_terminal (responses k) = false) :
    poll_results responses fuel start = .error .pollTimeout := by
  induction fuel generalizing start with
  | zero => rfl
  | succ m ih =>
    rw [poll_results]
    rw [if_neg (by simp [h start le_rfl (by omega)])]
    exact ih (start + 1) (fun k hk1 hk2 => h k (by omega) (by omega))

/-- Counterexample to C2 as stated: for the response whose `extract_result`
list is empty, every entry of the per-file result list is (vacuously) `done`
or `failed`, yet `poll` does not return — it treats the batch as not yet
terminal and times out.  The claim's "returns as soon as every entry is
`done` or `failed`" therefore fails at this concrete input. -/
theorem poll_empty_entries_counterexample :
    (PollResponse.mk none []).extract_result.all entry_terminal = true ∧
    all_terminal ⟨none, []⟩ = false ∧
    poll_results (fun _ => ⟨none, []⟩) 3 0 = .error .pollTimeout :=
  ⟨rfl, rfl, rfl⟩

/-- C2 (amended) — `poll` reads the terminal-state field from each entry of
the per-file result list and never from the response envelope; it returns at
the first interval at which the entry list is non-empty and every entry is
`done` or `failed`, treats the batch as not yet terminal otherwise (including
when the envelope has no top-level state field, and including the empty entry
list), and raises `PollTimeoutError` if the interval count exceeds the
configured timeout before that condition holds. -/
theorem poll_reads_entry_states :
    (∀ (s s' : Option String) (l : List RemoteEntry),
      all_terminal ⟨s, l⟩ = all_terminal ⟨s', l⟩) ∧
    (∀ r : PollResponse,
      all_terminal r = true ↔
        r.extract_result ≠ [] ∧
          ∀ e ∈ r.extract_result, e.state = "done" ∨ e.state = "failed") ∧
    (∀ (responses : ℕ → PollResponse) (fuel n : ℕ),
      n < fuel → all_terminal (responses n) = true →
      (∀ k, k < n → all_terminal (responses k) = false) →
      poll_results responses fuel 0 = .ok (responses n)) ∧
    (∀ (responses : ℕ → PollResponse) (fuel : ℕ),
      (∀ k, k < fuel → all_terminal (responses k) = false) →
      poll_results responses fuel 0 = .error .pollTimeout) := by
  refine ⟨?_, ?_, ?_, ?_⟩
  · intro s s' l
    simp [all_terminal]
  · intro r
    rcases r with ⟨s, l⟩
    unfold all_terminal entry_terminal
    cases l with
    | nil => simp
    | cons e es => simp [List.all_eq_true]
  · intro responses fuel n hn hterm hfirst
    exact poll_results_ok_of_first responses fuel 0 n (Nat.zero_le n) (by omega) hterm
      (fun k _ hk => hfirst k hk)
  · intro responses fuel h
    exact poll_results_timeout_of_none responses fuel 0
      (fun k _ hk => h k (by omega))

/-- Witness for C2 (amended): a batch whose single file is `running` for two
intervals and `done` at the third is returned at the third interval with a
five-interval budget; a batch that never terminates within a two-interval
budget raises `PollTimeoutError`. -/
theorem poll_reads_entry_states_witness :
    poll_results
        (fun k => if k < 2 then ⟨none, [⟨"invoice.pdf", "running", none, none⟩]⟩
                  else ⟨none, [⟨"invoice.pdf", "done", some "https://x/zip", none⟩]⟩)
        5 0
      = .ok ⟨none, [⟨"invoice.pdf", "done", some "https://x/zip", none⟩]⟩ ∧
    poll_results (fun _ => ⟨none, [⟨"invoice.pdf", "pending", none, none⟩]⟩) 2 0
      = .error .pollTimeout := by
  constructor
  · have h := poll_reads_entry_states.2.2.1
      (fun k => if k < 2 then ⟨none, [⟨"invoice.pdf", "running", none, none⟩]⟩
                else ⟨none, [⟨"invoice.pdf", "done", some "https://x/zip", none⟩]⟩)
      5 2 (by omega) rfl ?_
    · simpa using h
    · intro k hk
      interval_cases k <;> rfl
  · exact poll_reads_entry_states.2.2.2
      (fun _ => ⟨none, [⟨"invoice.pdf", "pending", none, none⟩]⟩) 2
      (fun k _ => rfl)

theorem jlookup_cons_self (k : String) (v : Json) (rest : List (String × Json)) :
    jlookup ((k, v) :: rest) k = some v := by
  simp [jlookup]

theorem jlookup_cons_ne (k k' : String) (v : Json) (rest : List (String × Json))
    (h : k ≠ k') : jlookup ((k, v) :: rest) k' = jlookup rest k' := by
  simp [jlookup, h]

theorem jlookup_mem {obj : List (String × Json)} {key : String} {v : Json}
    (h : jlookup obj key = some v) : (key, v) ∈ obj := by
  induction obj with
  | nil => simp [jlookup] at h
  | cons kv rest ih =>
    rcases kv with ⟨k, w⟩
    rw [jlookup] at h
    by_cases hk : k = key
    · rw [if_pos hk] at h
      subst hk
      obtain rfl : w = v := Option.some.inj h
      exact List.mem_cons_self _ _
    · rw [if_neg hk] at h
      exact List.mem_cons_of_mem _ (ih h)

theorem jlookup_isSome_of_mem_keys {obj : List (String × Json)} {key : String}
    (h : key ∈ obj.map Prod.fst) : ∃ v, jlookup obj key = some v := by
  induction obj with
  | nil => simp at h
  | cons kv rest ih =>
    rcases kv with ⟨k, w⟩
    by_cases hk : k = key
    · exact ⟨w, by simp [jlookup, hk]⟩
    · rw [jlookup, if_neg hk]
      apply ih
      simp only [List.map_cons, List.mem_cons] at h
      rcases h with h | h
      · exact absurd h.symm hk
      · exact h

theorem getNum_eq_of_numeric {obj : List (String × Json)} {key : String} {v : Json}
    (h : jlookup obj key = some v) (hv : numericValue v) :
    getNum obj key = .ok (decodeNum v) := by
  unfold getNum
  rw [h]
  rcases hv with hv | ⟨q, hv⟩ <;> subst hv <;> rfl

theorem getStr_eq_of_string {obj : List (String × Json)} {key : String} {v : Json}
    (h : jlookup obj key = some v) (hv : stringValue v) :
    getStr obj key = .ok (decodeStr v) := by
  unfold getStr
  rw [h]
  rcases hv with hv | ⟨s, hv⟩ <;> subst hv <;> rfl

theorem dumpNum_decodeNum {v : Json} (hv : numericValue v) :
    dumpNum (decodeNum v) = v := by
  rcases hv with hv | ⟨q, hv⟩ <;> subst hv <;> rfl

theorem dumpStr_decodeStr {v : Json} (hv : stringValue v) :
    dumpStr (decodeStr v) = v := by
  rcases hv with hv | ⟨s, hv⟩ <;> subst hv <;> rfl

theorem getNum_ok_cases {obj : List (String × Json)} {key : String}
    (h : ∀ v, jlookup obj key = some v → numericValue v) :
    ∃ o, getNum obj key = .ok o ∧ (jlookup obj key = none → o = none) := by
  cases hv : jlookup obj key with
  | none => exact ⟨none, by unfold getNum; rw [hv], fun _ => rfl⟩
  | some v =>
    exact ⟨decodeNum v, getNum_eq_of_numeric hv (h v hv), fun hc => by cases hc⟩

theorem getStr_ok_cases {obj : List (String × Json)} {key : String}
    (h : ∀ v, jlookup obj key = some v → stringValue v) :
    ∃ o, getStr obj key = .ok o ∧ (jlookup obj key = none → o = none) := by
  cases hv : jlookup obj key with
  | none => exact ⟨none, by unfold getStr; rw [hv], fun _ => rfl⟩
  | some v =>
    exact ⟨decodeStr v, getStr_eq_of_string hv (h v hv), fun hc => by cases hc⟩

theorem model_validate_eq {obj : List (String × Json)}
    {ta ip pp pap pcp : Option ℚ} {py vd : Option String}
    (h1 : getNum obj "总金额" = .ok ta)
    (h2 : getStr obj "收款单位" = .ok py)
    (h3 : getStr obj "就诊日期" = .ok vd)
    (h4 : getNum obj "医保基金支付金额" = .ok ip)
    (h5 : getNum obj "个人支付" = .ok pp)
    (h6 : getNum obj "个人账户支付" = .ok pap)
    (h7 : getNum obj "个人现金支付" = .ok pcp) :
    model_validate obj = .ok ⟨ta, py, vd, ip, pp, pap, pcp⟩ := by
  unfold model_validate
  rw [h1, h2, h3, h4, h5, h6, h7]

/-- C5 — For every JSON object keyed by the seven human-facing (Chinese)
labels with values of the declared field types, constructing an
`InvoiceData` from it and re-serializing the record with human-facing labels
reproduces exactly the original key set and the original values: the
label-to-internal-name alias mapping is lossless in both directions. -/
theorem invoice_alias_roundtrip (obj : List (String × Json))
    (hkeys : (obj.map Prod.fst).Perm invoiceAliases)
    (hwt : ∀ kv ∈ obj, declaredTypeOk kv.1 kv.2) :
    ∃ rec, model_validate obj = .ok rec ∧
      ((model_dump_by_alias rec).map Prod.fst).Perm (obj.map Prod.fst) ∧
      ∀ l ∈ invoiceAliases, jlookup (model_dump_by_alias rec) l = jlookup obj l := by
  have hmem : ∀ l ∈ invoiceAliases, ∃ v, jlookup obj l = some v := fun l hl =>
    jlookup_isSome_of_mem_keys (hkeys.mem_iff.mpr hl)
  obtain ⟨v1, hv1⟩ := hmem "总金额" (by simp [invoiceAliases])
  obtain ⟨v2, hv2⟩ := hmem "收款单位" (by simp [invoiceAliases])
  obtain ⟨v3, hv3⟩ := hmem "就诊日期" (by simp [invoiceAliases])
  obtain ⟨v4, hv4⟩ := hmem "医保基金支付金额" (by simp [invoiceAliases])
  obtain ⟨v5, hv5⟩ := hmem "个人支付" (by simp [invoiceAliases])
  obtain ⟨v6, hv6⟩ := hmem "个人账户支付" (by simp [invoiceAliases])
  obtain ⟨v7, hv7⟩ := hmem "个人现金支付" (by simp [invoiceAliases])
  have ht1 : numericValue v1 := (hwt _ (jlookup_mem hv1)).1 rfl
  have ht2 : stringValue v2 := (hwt _ (jlookup_mem hv2)).2.1 rfl
  have ht3 : stringValue v3 := (hwt _ (jlookup_mem hv3)).2.2.1 rfl
  have ht4 : numericValue v4 := (hwt _ (jlookup_mem hv4)).2.2.2.1 rfl
  have ht5 : numericValue v5 := (hwt _ (jlookup_mem hv5)).2.2.2.2.1 rfl
  have ht6 : numericValue v6 := (hwt _ (jlookup_mem hv6)).2.2.2.2.2.1 rfl
  have ht7 : numericValue v7 := (hwt _ (jlookup_mem hv7)).2.2.2.2.2.2 rfl
  refine ⟨⟨decodeNum v1, decodeStr v2, decodeStr v3, decodeNum v4, decodeNum v5,
    decodeNum v6, decodeNum v7⟩, ?_, ?_, ?_⟩
  · exact model_validate_eq (getNum_eq_of_numeric hv1 ht1) (getStr_eq_of_string hv2 ht2)
      (getStr_eq_of_string hv3 ht3) (getNum_eq_of_numeric hv4 ht4)
      (getNum_eq_of_numeric hv5 ht5) (getNum_eq_of_numeric hv6 ht6)
      (getNum_eq_of_numeric hv7 ht7)
  · exact hkeys.symm
  · have hdump : model_dump_by_alias ⟨decodeNum v1, decodeStr v2, decodeStr v3,
        decodeNum v4, decodeNum v5, decodeNum v6, decodeNum v7⟩
        = [("总金额", v1), ("收款单位", v2), ("就诊日期", v3), ("医保基金支付金额", v4),
           ("个人支付", v5), ("个人账户支付", v6), ("个人现金支付", v7)] := by
      simp [model_dump_by_alias, dumpNum_decodeNum ht1, dumpStr_decodeStr ht2,
        dumpStr_decodeStr ht3, dumpNum_decodeNum ht4, dumpNum_decodeNum ht5,
        dumpNum_decodeNum ht6, dumpNum_decodeNum ht7]
    intro l hl
    rw [hdump]
    have hl7 : l = "总金额" ∨ l = "收款单位" ∨ l = "就诊日期" ∨ l = "医保基金支付金额" ∨
        l = "个人支付" ∨ l = "个人账户支付" ∨ l = "个人现金支付" := by
      simpa [invoiceAliases] using hl
    rcases hl7 with rfl | rfl | rfl | rfl | rfl | rfl | rfl
    · simp [jlookup, hv1]
    · simp [jlookup, hv2]
    · simp [jlookup, hv3]
    · simp [jlookup, hv4]
    · simp [jlookup, hv5]
    · simp [jlookup, hv6]
    · simp [jlookup, hv7]

/-- Witness for C5: a concrete object holding the seven Chinese-labelled
fields in a non-canonical order round-trips: validation succeeds and
re-serialization with aliases reproduces the payee value under its label. -/
theorem invoice_alias_roundtrip_witness :
    model_validate
        [("收款单位", .str "宣武医院"), ("总金额", .num (12456 / 100)),
         ("就诊日期", .str "2025-06-05"), ("医保基金支付金额", .num 80),
         ("个人支付", .num (4456 / 100)), ("个人账户支付", .num 30),
         ("个人现金支付", .num (1456 / 100))]
      = .ok ⟨some (12456 / 100), some "宣武医院", some "2025-06-05", some 80,
             some (4456 / 100), some 30, some (1456 / 100)⟩ ∧
    jlookup (model_dump_by_alias ⟨some (12456 / 100), some "宣武医院",
        some "2025-06-05", some 80, some (4456 / 100), some 30,
        some (1456 / 100)⟩) "收款单位"
      = jlookup
          [("收款单位", .str "宣武医院"), ("总金额", .num (12456 / 100)),
           ("就诊日期", .str "2025-06-05"), ("医保基金支付金额", .num 80),
           ("个人支付", .num (4456 / 100)), ("个人账户支付", .num 30),
           ("个人现金支付", .num (1456 / 100))] "收款单位" := by
  obtain ⟨rec, h1, h2, h3⟩ := invoice_alias_roundtrip
    [("收款单位", .str "宣武医院"), ("总金额", .num (12456 / 100)),
     ("就诊日期", .str "2025-06-05"), ("医保基金支付金额", .num 80),
     ("个人支付", .num (4456 / 100)), ("个人账户支付", .num 30),
     ("个人现金支付", .num (1456 / 100))]
    (by simp only [List.map_cons, List.map_nil, invoiceAliases]
        exact List.Perm.swap _ _ _)
    (by intro kv hkv
        simp only [List.mem_cons, List.not_mem_nil, or_false] at hkv
        rcases hkv with rfl | rfl | rfl | rfl | rfl | rfl | rfl <;>
          simp [declaredTypeOk, numericValue, stringValue])
  have h0 : model_validate
      [("收款单位", .str "宣武医院"), ("总金额", .num (12456 / 100)),
       ("就诊日期", .str "2025-06-05"), ("医保基金支付金额", .num 80),
       ("个人支付", .num (4456 / 100)), ("个人账户支付", .num 30),
       ("个人现金支付", .num (1456 / 100))]
      = .ok ⟨some (12456 / 100), some "宣武医院", some "2025-06-05", some 80,
             some (4456 / 100), some 30, some (1456 / 100)⟩ := rfl
  rw [h0] at h1
  obtain rfl := Except.ok.inj h1
  exact ⟨h0, h3 "收款单位" (by simp [invoiceAliases])⟩

/-- C8 — For every model response whose JSON object omits one of the seven
fields (and whose present fields are well-typed), `structure` maps that field
to "unset" in the resulting `InvoiceData` — validation succeeds (no
parse/validation error) and the field serializes as `null`, which is neither
the number zero, the empty string, nor any other placeholder value. -/
theorem absent_field_maps_to_unset (obj : List (String × Json)) (l : String)
    (hl : l ∈ invoiceAliases)
    (habs : jlookup obj l = none)
    (hwt : ∀ kv ∈ obj, declaredTypeOk kv.1 kv.2) :
    ∃ rec, model_validate obj = .ok rec ∧
      jlookup (model_dump_by_alias rec) l = some .null ∧
      Json.null ≠ .num 0 ∧ Json.null ≠ .str "" := by
  have hn1 : ∀ v, jlookup obj "总金额" = some v → numericValue v :=
    fun v hv => (hwt _ (jlookup_mem hv)).1 rfl
  have hs2 : ∀ v, jlookup obj "收款单位" = some v → stringValue v :=
    fun v hv => (hwt _ (jlookup_mem hv)).2.1 rfl
  have hs3 : ∀ v, jlookup obj "就诊日期" = some v → stringValue v :=
    fun v hv => (hwt _ (jlookup_mem hv)).2.2.1 rfl
  have hn4 : ∀ v, jlookup obj "医保基金支付金额" = some v → numericValue v :=
    fun v hv => (hwt _ (jlookup_mem hv)).2.2.2.1 rfl
  have hn5 : ∀ v, jlookup obj "个人支付" = some v → numericValue v :=
    fun v hv => (hwt _ (jlookup_mem hv)).2.2.2.2.1 rfl
  have hn6 : ∀ v, jlookup obj "个人账户支付" = some v → numericValue v :=
    fun v hv => (hwt _ (jlookup_mem hv)).2.2.2.2.2.1 rfl
  have hn7 : ∀ v, jlookup obj "个人现金支付" = some v → numericValue v :=
    fun v hv => (hwt _ (jlookup_mem hv)).2.2.2.2.2.2 rfl
  obtain ⟨o1, ho1, hz1⟩ := getNum_ok_cases hn1
  obtain ⟨o2, ho2, hz2⟩ := getStr_ok_cases hs2
  obtain ⟨o3, ho3, hz3⟩ := getStr_ok_cases hs3
  obtain ⟨o4, ho4, hz4⟩ := getNum_ok_cases hn4
  obtain ⟨o5, ho5, hz5⟩ := getNum_ok_cases hn5
  obtain ⟨o6, ho6, hz6⟩ := getNum_ok_cases hn6
  obtain ⟨o7, ho7, hz7⟩ := getNum_ok_cases hn7
  refine ⟨⟨o1, o2, o3, o4, o5, o6, o7⟩,
    model_validate_eq ho1 ho2 ho3 ho4 ho5 ho6 ho7, ?_, by simp, by simp⟩
  have hl7 : l = "总金额" ∨ l = "收款单位" ∨ l = "就诊日期" ∨ l = "医保基金支付金额" ∨
      l = "个人支付" ∨ l = "个人账户支付" ∨ l = "个人现金支付" := by
    simpa [invoiceAliases] using hl
  rcases hl7 with rfl | rfl | rfl | rfl | rfl | rfl | rfl
  · simp [model_dump_by_alias, jlookup, hz1 habs, dumpNum]
  · simp [model_dump_by_alias, jlookup, hz2 habs, dumpStr]
  · simp [model_dump_by_alias, jlookup, hz3 habs, dumpStr]
  · simp [model_dump_by_alias, jlookup, hz4 habs, dumpNum]
  · simp [model_dump_by_alias, jlookup, hz5 habs, dumpNum]
  · simp [model_dump_by_alias, jlookup, hz6 habs, dumpNum]
  · simp [model_dump_by_alias, jlookup, hz7 habs, dumpNum]

/-- Witness for C8: an object that omits 就诊日期 (visit date) validates
successfully and the resulting record serializes that field as `null`. -/
theorem absent_field_maps_to_unset_witness :
    model_validate
        [("总金额", .num (12456 / 100)), ("收款单位", .str "宣武医院"),
         ("医保基金支付金额", .num 80), ("个人支付", .num (4456 / 100)),
         ("个人账户支付", .num 30), ("个人现金支付", .num (1456 / 100))]
      = .ok ⟨some (12456 / 100), some "宣武医院", none, some 80,
             some (4456 / 100), some 30, some (1456 / 100)⟩ ∧
    jlookup (model_dump_by_alias ⟨some (12456 / 100), some "宣武医院", none,
        some 80, some (4456 / 100), some 30, some (1456 / 100)⟩) "就诊日期"
      = some .null := by
  obtain ⟨rec, h1, h2, h3, h4⟩ := absent_field_maps_to_unset
    [("总金额", .num (12456 / 100)), ("收款单位", .str "宣武医院"),
     ("医保基金支付金额", .num 80), ("个人支付", .num (4456 / 100)),
     ("个人账户支付", .num 30), ("个人现金支付", .num (1456 / 100))]
    "就诊日期" (by simp [invoiceAliases]) rfl
    (by intro kv hkv
        simp only [List.mem_cons, List.not_mem_nil, or_false] at hkv
        rcases hkv with rfl | rfl | rfl | rfl | rfl | rfl <;>
          simp [declaredTypeOk, numericValue, stringValue])
  have h0 : model_validate
      [("总金额", .num (12456 / 100)), ("收款单位", .str "宣武医院"),
       ("医保基金支付金额", .num 80), ("个人支付", .num (4456 / 100)),
       ("个人账户支付", .num 30), ("个人现金支付", .num (1456 / 100))]
      = .ok ⟨some (12456 / 100), some "宣武医院", none, some 80,
             some (4456 / 100), some 30, some (1456 / 100)⟩ := rfl
  rw [h0] at h1
  obtain rfl := Except.ok.inj h1
  exact ⟨h0, h2⟩

theorem processFile_filename (entries : List RemoteEntry)
    (fetches : String → Except PipeError ResultArchive)
    (structures : String → Except PipeError InvoiceData) (name : String) :
    (processFile entries fetches structures name).filename = name := by
  unfold processFile
  cases findEntry entries name with
  | none => rfl
  | some e =>
    dsimp only
    by_cases hs : e.state = "done"
    · rw [if_pos hs]
      cases fileChain fetches structures name <;> rfl
    · rw [if_neg hs]
      rfl

theorem findEntry_eq_of_perm {entries entries' : List RemoteEntry}
    (hperm : entries.Perm entries')
    (hnd : (entries.map RemoteEntry.file_name).Nodup) (name : String) :
    findEntry entries name = findEntry entries' name := by
  unfold findEntry
  cases hfe : entries.find? (fun e => e.file_name == name) with
  | none =>
    rw [List.find?_eq_none] at hfe
    symm
    rw [List.find?_eq_none]
    intro e he
    exact hfe e (hperm.mem_iff.mpr he)
  | some e =>
    have hmem : e ∈ entries := List.mem_of_find?_eq_some hfe
    have hpe : e.file_name = name := by simpa using List.find?_some hfe
    cases hfe' : entries'.find? (fun e => e.file_name == name) with
    | none =>
      rw [List.find?_eq_none] at hfe'
      exact absurd (by simpa using hpe) (hfe' e (hperm.mem_iff.mp hmem))
    | some e' =>
      have hmem' : e' ∈ entries := hperm.mem_iff.mpr (List.mem_of_find?_eq_some hfe')
      have hpe' : e'.file_name = name := by simpa using List.find?_some hfe'
      have : e = e' :=
        List.inj_on_of_nodup_map hnd hmem hmem' (by rw [hpe, hpe'])
      rw [this]

/-- C1 — For every batch of N submitted files, the pipeline's `run` operation
returns a result list with exactly N entries, one per submitted file, whose
order matches the input file order regardless of the order in which the
remote service reports per-file completion (permuting the per-file entry list
of the final poll response does not change the result list, provided the
batch's remote entries carry distinct file names). -/
theorem pipeline_n_results_in_input_order :
    (∀ (entries : List RemoteEntry) fetches structures (files : List String),
      (run_pipeline entries fetches structures files).length = files.length) ∧
    (∀ (entries : List RemoteEntry) fetches structures (files : List String) (i : ℕ),
      ((run_pipeline entries fetches structures files)[i]?).map PipelineResult.filename
        = files[i]?) ∧
    (∀ (entries entries' : List RemoteEntry) fetches structures (files : List String),
      entries.Perm entries' → (entries.map RemoteEntry.file_name).Nodup →
      run_pipeline entries fetches structures files
        = run_pipeline entries' fetches structures files) := by
  refine ⟨?_, ?_, ?_⟩
  · intro entries fetches structures files
    simp [run_pipeline]
  · intro entries fetches structures files i
    rcases hlt : files[i]? with _ | name
    · have : files.length ≤ i := by
        simpa using List.getElem?_eq_none_iff.mp hlt
      rw [List.getElem?_eq_none_iff.mpr (by simpa [run_pipeline] using this)]
      rfl
    · rw [run_pipeline, List.getElem?_map, hlt]
      simp [processFile_filename]
  · intro entries entries' fetches structures files hperm hnd
    unfold run_pipeline
    apply List.map_congr_left
    intro name _
    unfold processFile
    rw [findEntry_eq_of_perm hperm hnd name]

/-- Witness for C1: a two-file batch whose poll response lists the entries in
reversed completion order still yields two results named in input order, and
reversing the entry list changes nothing. -/
theorem pipeline_n_results_in_input_order_witness :
    (run_pipeline
        [⟨"b.pdf", "failed", none, some "parse error"⟩,
         ⟨"a.pdf", "done", some "https://x/a.zip", none⟩]
        (fun _ => .error .fetch) (fun _ => .error .structuringParse)
        ["a.pdf", "b.pdf"]).length = 2 ∧
    ((run_pipeline
        [⟨"b.pdf", "failed", none, some "parse error"⟩,
         ⟨"a.pdf", "done", some "https://x/a.zip", none⟩]
        (fun _ => .error .fetch) (fun _ => .error .structuringParse)
        ["a.pdf", "b.pdf"])[0]?).map PipelineResult.filename = some "a.pdf" ∧
    run_pipeline
        [⟨"b.pdf", "failed", none, some "parse error"⟩,
         ⟨"a.pdf", "done", some "https://x/a.zip", none⟩]
        (fun _ => .error .fetch) (fun _ => .error .structuringParse)
        ["a.pdf", "b.pdf"]
      = run_pipeline
          [⟨"a.pdf", "done", some "https://x/a.zip", none⟩,
           ⟨"b.pdf", "failed", none, some "parse error"⟩]
          (fun _ => .error .fetch) (fun _ => .error .structuringParse)
          ["a.pdf", "b.pdf"] := by
  refine ⟨pipeline_n_results_in_input_order.1 _ _ _ _, ?_, ?_⟩
  · rw [pipeline_n_results_in_input_order.2.1]
    rfl
  · exact pipeline_n_results_in_input_order.2.2 _ _ _ _ _
      (List.Perm.swap _ _ _) (by decide)

/-- C3 — For every batch, a failure of one file (whether reported `failed` by
the remote service or raised during that file's fetch/extract/structure
chain) is converted into that file's failure descriptor and never aborts or
prevents the processing of the other files in the same batch: each result
slot is that file's own independent processing (first conjunct), a file's
result depends only on its own entry, its own archive fetch and the
structuring of its own text (second conjunct), a remotely failed file yields
its failure descriptor (third conjunct), and a `done` file whose chain
succeeds yields its record no matter what happened to its siblings (fourth
conjunct). -/
theorem pipeline_failure_isolation :
    (∀ entries fetches structures (files : List String) (i : ℕ),
      (run_pipeline entries fetches structures files)[i]?
        = (files[i]?).map (processFile entries fetches structures)) ∧
    (∀ entries entries' fetches fetches' structures structures' (name : String),
      findEntry entries name = findEntry entries' name →
      fetches name = fetches' name →
      (∀ t, structures t = structures' t) →
      processFile entries fetches structures name
        = processFile entries' fetches' structures' name) ∧
    (∀ entries fetches structures (files : List String) (i : ℕ)
        (name : String) (e : RemoteEntry),
      files[i]? = some name → findEntry entries name = some e → e.state = "failed" →
      (run_pipeline entries fetches structures files)[i]?
        = some (.failure name (e.err_msg.getD "remote parsing failed"))) ∧
    (∀ entries fetches structures (files : List String) (i : ℕ)
        (name : String) (e : RemoteEntry) (rec : InvoiceData),
      files[i]? = some name → findEntry entries name = some e → e.state = "done" →
      fileChain fetches structures name = .ok rec →
      (run_pipeline entries fetches structures files)[i]? = some (.data name rec)) := by
  refine ⟨?_, ?_, ?_, ?_⟩
  · intro entries fetches structures files i
    rw [run_pipeline, List.getElem?_map]
  · intro entries entries' fetches fetches' structures structures' name hf hfe hst
    have hchain : fileChain fetches structures name
        = fileChain fetches' structures' name := by
      unfold fileChain
      rw [hfe]
      cases fetches' name with
      | error e => rfl
      | ok z =>
        dsimp only
        cases extract_content_text_from_zip z with
        | error e => rfl
        | ok t => exact hst t
    unfold processFile
    rw [hf, hchain]
  · intro entries fetches structures files i name e hi hfind hstate
    have hpf : processFile entries fetches structures name
        = .failure name (e.err_msg.getD "remote parsing failed") := by
      unfold processFile
      rw [hfind]
      dsimp only
      rw [if_neg (by simp [hstate])]
    rw [run_pipeline, List.getElem?_map, hi, Option.map_some', hpf]
  · intro entries fetches structures files i name e rec hi hfind hstate hchain
    have hpf : processFile entries fetches structures name = .data name rec := by
      unfold processFile
      rw [hfind]
      dsimp only
      rw [if_pos hstate, hchain]
    rw [run_pipeline, List.getElem?_map, hi, Option.map_some', hpf]

/-- Witness for C3: in a two-file batch where `b.pdf` is reported `failed` by
the remote service, `a.pdf` is still fetched, extracted and structured to its
record, and `b.pdf` yields its own failure descriptor carrying the remote's
failure text. -/
theorem pipeline_failure_isolation_witness :
    (run_pipeline
        [⟨"a.pdf", "done", some "https://x/a.zip", none⟩,
         ⟨"b.pdf", "failed", none, some "remote parse error"⟩]
        (fun _ => .ok ⟨some [[⟨"page_footer", "收款单位（章）：宣武医院"⟩]], none, none⟩)
        (fun _ => .ok ⟨some 124, some "宣武医院", none, none, none, none, none⟩)
        ["a.pdf", "b.pdf"])[0]?
      = some (.data "a.pdf" ⟨some 124, some "宣武医院", none, none, none, none, none⟩) ∧
    (run_pipeline
        [⟨"a.pdf", "done", some "https://x/a.zip", none⟩,
         ⟨"b.pdf", "failed", none, some "remote parse error"⟩]
        (fun _ => .ok ⟨some [[⟨"page_footer", "收款单位（章）：宣武医院"⟩]], none, none⟩)
        (fun _ => .ok ⟨some 124, some "宣武医院", none, none, none, none, none⟩)
        ["a.pdf", "b.pdf"])[1]?
      = some (.failure "b.pdf" "remote parse error") := by
  constructor
  · exact pipeline_failure_isolation.2.2.2 _ _ _ _ _ _
      ⟨"a.pdf", "done", some "https://x/a.zip", none⟩ _ rfl rfl rfl rfl
  · exact pipeline_failure_isolation.2.2.1 _ _ _ _ _ _
      ⟨"b.pdf", "failed", none, some "remote parse error"⟩ rfl rfl rfl

theorem updateStatus_mutex (s : FileJobStatus) (e : RemoteEntry)
    (h : ¬(s.result_location.isSome ∧ s.failure_reason.isSome)) :
    ¬((updateStatus s e).result_location.isSome
        ∧ (updateStatus s e).failure_reason.isSome) := by
  unfold updateStatus
  split
  · exact h
  · split
    · simp
    · split
      · simp
      · split
        · simp
        · exact h

theorem runUpdates_mutex (es : List RemoteEntry) (s : FileJobStatus)
    (h : ¬(s.result_location.isSome ∧ s.failure_reason.isSome)) :
    ¬((runUpdates s es).result_location.isSome
        ∧ (runUpdates s es).failure_reason.isSome) := by
  induction es generalizing s with
  | nil => exact h
  | cons e es ih => exact ih (updateStatus s e) (updateStatus_mutex s e h)

theorem updateStatus_terminal_fix (s : FileJobStatus) (e : RemoteEntry)
    (h : s.state.terminal = true) : updateStatus s e = s := by
  unfold updateStatus
  rw [if_pos h]

/-- C6 — For every `FileJobStatus` reachable from the initial (pending)
status by polling-loop steps, it never simultaneously holds a
result-location and a failure-reason; and once a status has entered a
terminal state (`done` or `failed`), no subsequent polling-loop step — and
hence no sequence of them — changes it. -/
theorem fileJobStatus_invariants :
    (∀ (id : String) (es : List RemoteEntry),
      ¬((runUpdates (initStatus id) es).result_location.isSome
          ∧ (runUpdates (initStatus id) es).failure_reason.isSome)) ∧
    (∀ (s : FileJobStatus) (e : RemoteEntry),
      s.state.terminal = true → updateStatus s e = s) ∧
    (∀ (s : FileJobStatus) (es : List RemoteEntry),
      s.state.terminal = true → runUpdates s es = s) := by
  refine ⟨?_, updateStatus_terminal_fix, ?_⟩
  · intro id es
    exact runUpdates_mutex es (initStatus id) (by simp [initStatus])
  · intro s es h
    induction es with
    | nil => rfl
    | cons e es ih =>
      show runUpdates (updateStatus s e) es = s
      rw [updateStatus_terminal_fix s e h]
      exact ih

/-- Witness for C6: a status driven from pending through `running`, `done`
and a later contradictory `failed` report never holds both fields, and a
terminal `done` status is unchanged by a subsequent `failed` report. -/
theorem fileJobStatus_invariants_witness :
    ¬((runUpdates (initStatus "invoice.pdf")
          [⟨"invoice.pdf", "running", none, none⟩,
           ⟨"invoice.pdf", "done", some "https://x/zip", none⟩,
           ⟨"invoice.pdf", "failed", none, some "late failure"⟩]).result_location.isSome
        ∧ (runUpdates (initStatus "invoice.pdf")
          [⟨"invoice.pdf", "running", none, none⟩,
           ⟨"invoice.pdf", "done", some "https://x/zip", none⟩,
           ⟨"invoice.pdf", "failed", none, some "late failure"⟩]).failure_reason.isSome) ∧
    updateStatus ⟨"invoice.pdf", .done, some "https://x/zip", none⟩
        ⟨"invoice.pdf", "failed", none, some "late failure"⟩
      = ⟨"invoice.pdf", .done, some "https://x/zip", none⟩ := by
  constructor
  · exact fileJobStatus_invariants.1 "invoice.pdf" _
  · exact fileJobStatus_invariants.2.1 _ _ rfl

theorem jsReplaceFirst_no_occ (pat s : List Char)
    (h : ∀ k, pat.isPrefixOf (s.drop k) = false) :
    jsReplaceFirst pat s = s := by
  induction s with
  | nil => rfl
  | cons c rest ih =>
    have h0 : pat.isPrefixOf (c :: rest) = false := by simpa using h 0
    rw [jsReplaceFirst, if_neg (by simp [h0])]
    rw [ih (fun k => by simpa using h (k + 1))]

theorem jsReplaceFirst_first_occ (pat s : List Char) (i : ℕ)
    (h1 : pat.isPrefixOf (s.drop i) = true)
    (h2 : ∀ k < i, pat.isPrefixOf (s.drop k) = false) :
    jsReplaceFirst pat s = s.take i ++ s.drop (i + pat.length) := by
  induction s generalizing i with
  | nil => simp [jsReplaceFirst]
  | cons c rest ih =>
    cases i with
    | zero =>
      rw [List.drop_zero] at h1
      rw [jsReplaceFirst, if_pos (by simp [h1])]
      simp
    | succ j =>
      have h0 : pat.isPrefixOf (c :: rest) = false := by
        simpa using h2 0 (Nat.succ_pos j)
      rw [jsReplaceFirst, if_neg (by simp [h0])]
      rw [ih j (by simpa using h1) (fun k hk => by simpa using h2 (k + 1) (by omega))]
      have hd : j + 1 + pat.length = (j + pat.length) + 1 := by omega
      rw [List.take_succ_cons, hd, List.drop_succ_cons]
      rfl

/-- C9 — For every displayed result, the frontend Download action names the
saved file by removing only the first occurrence of the exact lowercase
substring ".pdf" from the result's filename and appending "_extracted.json":
if the first occurrence starts at character position `i`, exactly those four
characters are removed (first conjunct); a filename with no occurrence of
lowercase ".pdf" keeps its full name (second conjunct); "SCAN.PDF" keeps its
full name and "a.pdf.pdf" yields "a.pdf_extracted.json" (last conjuncts). -/
theorem download_name_replaces_first_pdf :
    (∀ (fn : List Char) (i : ℕ),
      ".pdf".toList.isPrefixOf (fn.drop i) = true →
      (∀ k < i, ".pdf".toList.isPrefixOf (fn.drop k) = false) →
      handleDownloadName fn
        = fn.take i ++ (fn.drop (i + 4) ++ "_extracted.json".toList)) ∧
    (∀ fn : List Char,
      (∀ k, ".pdf".toList.isPrefixOf (fn.drop k) = false) →
      handleDownloadName fn = fn ++ "_extracted.json".toList) ∧
    handleDownloadName "SCAN.PDF".toList = "SCAN.PDF_extracted.json".toList ∧
    handleDownloadName "a.pdf.pdf".toList = "a.pdf_extracted.json".toList := by
  refine ⟨?_, ?_, ?_, ?_⟩
  · intro fn i h1 h2
    unfold handleDownloadName
    rw [jsReplaceFirst_first_occ _ _ i h1 h2]
    rw [show ".pdf".toList.length = 4 from rfl, List.append_assoc]
  · intro fn h
    unfold handleDownloadName
    rw [jsReplaceFirst_no_occ _ _ h]
  · rfl
  · rfl

/-- Witness for C9: in "a.pdfQ" the first (and only) occurrence of ".pdf"
starts at position 1, and the download name removes exactly those four
characters. -/
theorem download_name_replaces_first_pdf_witness :
    handleDownloadName "a.pdfQ".toList
      = "a.pdfQ".toList.take 1 ++ ("a.pdfQ".toList.drop 5 ++ "_extracted.json".toList) :=
  download_name_replaces_first_pdf.1 "a.pdfQ".toList 1 (by decide) (by decide)

/-- C10 — For every drag-and-drop event on the upload area, the selection
callback receives exactly the subset of dropped files whose MIME type is
"application/pdf" when that subset is non-empty, and is not invoked at all
when the drop contains no such file; files chosen through the browse dialog
are passed through with no type filtering. -/
theorem upload_drop_filters_pdfs :
    (∀ dropped : List DomFile,
      dropped.filter (fun f => f.mime == "application/pdf") ≠ [] →
      handleDrop dropped
        = some (dropped.filter (fun f => f.mime == "application/pdf"))) ∧
    (∀ dropped : List DomFile,
      dropped.filter (fun f => f.mime == "application/pdf") = [] →
      handleDrop dropped = none) ∧
    (∀ selected : List DomFile, handleFileSelect selected = some selected) := by
  refine ⟨?_, ?_, fun _ => rfl⟩
  · intro dropped h
    simp only [handleDrop]
    rw [if_neg (by simp [List.isEmpty_iff, h])]
  · intro dropped h
    simp only [handleDrop]
    rw [if_pos (by simp [List.isEmpty_iff, h])]

/-- Witness for C10: dropping a PDF together with a text file selects exactly
the PDF; dropping only a text file leaves the selection callback uninvoked;
the browse dialog passes a text file through unfiltered. -/
theorem upload_drop_filters_pdfs_witness :
    handleDrop [⟨"a.pdf", "application/pdf"⟩, ⟨"b.txt", "text/plain"⟩]
      = some [⟨"a.pdf", "application/pdf"⟩] ∧
    handleDrop [⟨"b.txt", "text/plain"⟩] = none ∧
    handleFileSelect [⟨"b.txt", "text/plain"⟩] = some [⟨"b.txt", "text/plain"⟩] := by
  refine ⟨?_, ?_, upload_drop_filters_pdfs.2.2 _⟩
  · rw [upload_drop_filters_pdfs.1 _ (by decide)]
    rfl
  · exact upload_drop_filters_pdfs.2.1 _ (by decide)

end MedicalInvoiceParser
